import Mathlib

/-!
Verification of the camera connection/acquisition state machine of
portrait-mate against its natural-language specification.

The repository contains three sequential variants of `CameraService`:

* the sync variant (`src/src/services/camera.ts`, first section): polls with
  `--auto-detect`, syncs photo ranges by capture time against a
  `sessionStartTime`, and exposes `resetSession`;
* the tethered-event variant (`src/src/services/camera.ts`, second section):
  spawns a long-lived `gphoto2 --capture-tethered` process, parses
  `Saving file as` lines, and guards presence checks with an `isChecking` flag;
* the poll/queue variant (`src/unnamed/part_000`, second section): discovers
  the on-device folder (`findCanonFolder`), maintains `downloadedFiles` /
  `downloadQueue`, and schedules reconnects with exponential backoff.

Each variant is embedded below in its own namespace.  The service objects are
modelled as explicit state records; each TypeScript method becomes a Lean
function from state (plus the method's inputs and the responses of the
external gphoto2 gateway, passed as oracles) to state.  Asynchronous methods
are split at their `await` points into atomic steps where interleaving
matters (the download queue of the poll variant, the presence-check busy
flag), and are otherwise modelled by their net effect.
-/

namespace PortraitMate

/-- Connection states, `CameraConnectionState` in the source. -/
inductive CameraConnectionState where
  | DISCONNECTED
  | CONNECTING
  | CONNECTED
  | ERROR
deriving DecidableEq

/-- Payload of a `status` event: `{ connected, state }`. -/
structure StatusEvent where
  connected : Bool
  state : CameraConnectionState
deriving DecidableEq

/-- Payload of a `photo` event: `{ filename, path }`. -/
structure PhotoEvent where
  filename : String
  path : String
deriving DecidableEq

/-- Payload of an `error` event: `{ message }`. -/
structure ErrorEvent where
  message : String
deriving DecidableEq

namespace EventVariant

/-- Mutable fields of the tethered-event `CameraService`
(`src/src/services/camera.ts`, second section) that the claims touch,
together with the streams of events emitted so far.  Timers are modelled by
the delay they are armed with (`none` = no pending timer); the monitor
subprocess by whether one is owned. -/
structure ServiceState where
  connectionState : CameraConnectionState
  isShuttingDown : Bool
  isPaused : Bool
  reconnectTimer : Option Nat
  killTimer : Option Nat
  monitorProcess : Bool
  statusEvents : List StatusEvent
  photoEvents : List PhotoEvent
  errorEvents : List ErrorEvent
deriving DecidableEq

/-- `setConnectionState` (camera.ts lines 870-882): assigns and emits a
`status` event only when the new state differs from the current one. -/
def setConnectionState (s : ServiceState) (state : CameraConnectionState) :
    ServiceState :=
  if s.connectionState ≠ state then
    { s with
      connectionState := state
      statusEvents := s.statusEvents ++
        [⟨decide (state = CameraConnectionState.CONNECTED), state⟩] }
  else s

/-- `stopAllTimers` (camera.ts lines 507-516): clears the reconnect and kill
timers. -/
def stopAllTimers (s : ServiceState) : ServiceState :=
  { s with reconnectTimer := none, killTimer := none }

/-- `stop` (camera.ts lines 521-552): sets `isShuttingDown`, clears timers,
terminates the monitor subprocess (graceful signal, forced after 5 s), then
assigns `connectionState = DISCONNECTED` directly and emits one final
`status` event unconditionally, bypassing `setConnectionState`'s
emit-only-on-change check. -/
def stop (s : ServiceState) : ServiceState :=
  let s₁ := stopAllTimers { s with isShuttingDown := true }
  let s₂ := { s₁ with monitorProcess := false }
  { s₂ with
    connectionState := CameraConnectionState.DISCONNECTED
    statusEvents := s₂.statusEvents ++
      [⟨false, CameraConnectionState.DISCONNECTED⟩] }

/-- `pause` (camera.ts lines 897-900). -/
def pause (s : ServiceState) : ServiceState := { s with isPaused := true }

/-- `resume` (camera.ts lines 905-908). -/
def resume (s : ServiceState) : ServiceState := { s with isPaused := false }

/-- Suffix of `hay` that follows the first occurrence of `needle`, or `none`
when `needle` does not occur (models where the regex engine anchors the
literal part of `/Saving file as (.+\.jpe?g)/`). -/
def afterFirst (needle : List Char) : List Char → Option (List Char)
  | [] => if needle = [] then some [] else none
  | c :: rest =>
      if needle.isPrefixOf (c :: rest) then some ((c :: rest).drop needle.length)
      else afterFirst needle rest

/-- Case-folded characters, modelling the regex `i` flag. -/
def lowerChars (cs : List Char) : List Char := cs.map Char.toLower

/-- Whether `cs` can be matched by `.+\.jpe?g` as a whole: at least one
  character, then a literal `.jpg` or `.jpeg` ending (case-insensitive). -/
def jpegCapture (cs : List Char) : Bool :=
  (".jpg".toList.isSuffixOf (lowerChars cs) && decide (5 ≤ cs.length)) ||
  (".jpeg".toList.isSuffixOf (lowerChars cs) && decide (6 ≤ cs.length))

/-- Greedy capture of `(.+\.jpe?g)`: the longest prefix of the remainder of
the line that `.+\.jpe?g` matches, or `none`. -/
def greedyJpeg (rest : List Char) : Option (List Char) :=
  ((List.range (rest.length + 1)).reverse).findSome? fun k =>
    let p := rest.take k
    if jpegCapture p then some p else none

/-- Result of `line.match(/Saving file as (.+\.jpe?g)/i)` on one stdout line:
the captured device-reported path, or `none` when the pattern does not match
(the caller's `line.includes('Saving file as')` gate is subsumed: a line
without the literal yields `none` either way). -/
def matchSavingLine (line : String) : Option (List Char) :=
  match afterFirst "Saving file as ".toList line.toList with
  | none => none
  | some rest => greedyJpeg rest

/-- `fullPath.split('/').pop() || ''`. -/
def lastSegment (cs : List Char) : List Char := ((cs.splitOn '/').getLast?).getD []

/-- The filename filter `/\.jpe?g$/i.test(filename)`. -/
def isJpegName (cs : List Char) : Bool :=
  ".jpg".toList.isSuffixOf (lowerChars cs) || ".jpeg".toList.isSuffixOf (lowerChars cs)

/-- Arguments `parsePhotoEvent` hands to the (fire-and-forget)
`waitForFileAndNotify` call. -/
structure WaitJob where
  fullPath : String
  filename : String
  photoPath : String
deriving DecidableEq

/-- `parsePhotoEvent` (camera.ts lines 693-722).  While `isPaused` the line is
dropped before any parsing ("skipping event"): nothing is emitted and nothing
is queued.  Otherwise the line is matched, the filename extracted and
filtered to JPEG, and a `waitForFileAndNotify` job is started; that pending
job is returned alongside the (unchanged) state. -/
def parsePhotoEvent (s : ServiceState) (line : String) :
    ServiceState × Option WaitJob :=
  if s.isPaused then (s, none)
  else
    match matchSavingLine line with
    | none => (s, none)
    | some fullPath =>
        let filename := lastSegment fullPath
        if isJpegName filename then
          (s, some ⟨String.mk fullPath, String.mk filename,
                    "/photos/" ++ String.mk filename⟩)
        else (s, none)

/-- `maxRetries` in `waitForFileAndNotify` (camera.ts line 732). -/
def maxRetries : Nat := 10

/-- `retryDelay` (ms) in `waitForFileAndNotify` (camera.ts line 733). -/
def retryDelay : Nat := 100

/-- The retry loop of `waitForFileAndNotify`: `accessible i` is the outcome of
the `access(fullPath)` probe on attempt `i` (`i` counts from the given start
index); on the first accessible attempt one `photo` event is emitted and the
loop returns, and when the remaining attempts run out one `error` event
naming the file is emitted instead. -/
def waitLoop (accessible : Nat → Bool) (filename photoPath : String)
    (s : ServiceState) : Nat → Nat → ServiceState
  | _, 0 =>
      { s with errorEvents :=
          s.errorEvents ++ [⟨"Photo file not ready: " ++ filename⟩] }
  | i, remaining + 1 =>
      if accessible i then
        { s with photoEvents := s.photoEvents ++ [⟨filename, photoPath⟩] }
      else waitLoop accessible filename photoPath s (i + 1) remaining

/-- `waitForFileAndNotify` (camera.ts lines 727-759): up to `maxRetries`
probes for the file at `retryDelay` ms intervals. -/
def waitForFileAndNotify (accessible : Nat → Bool) (job : WaitJob)
    (s : ServiceState) : ServiceState :=
  waitLoop accessible job.filename job.photoPath s 0 maxRetries

/-- Net effect of one stdout line once its pending wait (if any) has run:
`parsePhotoEvent` followed by the `waitForFileAndNotify` job it started. -/
def handleLine (accessible : Nat → Bool) (s : ServiceState) (line : String) :
    ServiceState :=
  match parsePhotoEvent s line with
  | (s', none) => s'
  | (s', some job) => waitForFileAndNotify accessible job s'

/-- Global view of `checkCameraAvailable` (camera.ts lines 765-837):
`isChecking` is the service's busy flag, `outstanding` counts `--summary`
subprocesses spawned whose promise has not yet settled, `spawnCount` counts
subprocesses ever spawned, and `results` records each call's boolean result
in settlement order. -/
structure GateState where
  isChecking : Bool
  outstanding : Nat
  spawnCount : Nat
  results : List Bool
deriving DecidableEq

/-- The two atomic phases of a presence check on the single-threaded event
loop: `call` is the synchronous front of `checkCameraAvailable` (it either
short-circuits on `isChecking` and immediately resolves `false`, or sets the
flag and spawns one subprocess), and `settle result` is the first handler
(timeout, `close` or `error`) firing for the outstanding subprocess, plus the
`finally` block that runs on the same microtask turn, which clears
`isChecking` and resolves the promise. -/
inductive GateOp where
  | call
  | settle (result : Bool)

/-- One atomic phase of the presence-check gate. -/
def gateStep (s : GateState) : GateOp → GateState
  | GateOp.call =>
      if s.isChecking then { s with results := s.results ++ [false] }
      else
        { s with
          isChecking := true
          outstanding := s.outstanding + 1
          spawnCount := s.spawnCount + 1 }
  | GateOp.settle b =>
      if 0 < s.outstanding then
        { s with
          isChecking := false
          outstanding := s.outstanding - 1
          results := s.results ++ [b] }
      else s

/-- Service start: no check in flight. -/
def gateInit : GateState :=
  { isChecking := false, outstanding := 0, spawnCount := 0, results := [] }

/-- A whole schedule of presence-check phases. -/
def gateRun (ops : List GateOp) : GateState := ops.foldl gateStep gateInit

/-- State of one `checkCameraAvailable` invocation past its spawn: the local
`resolved` flag, whether `detect.kill()` was issued, the service's
`isChecking` flag, and the list of `resolve(...)` values produced so far
(`resolve` settles a promise only the first time, but the list records every
call so that settling exactly once is a theorem, not a modelling choice). -/
structure CallState where
  resolved : Bool
  killed : Bool
  isChecking : Bool
  resolveCalls : List Bool
deriving DecidableEq

/-- The three callbacks that can fire for a spawned `--summary` subprocess:
the 5-second timeout, the `close` handler (with exit code and accumulated
stdout length), and the `error` handler. -/
inductive HandlerEvent where
  | timeout
  | close (code : Int) (outputLen : Nat)
  | procError

/-- One callback firing, as written in camera.ts lines 784-832: each handler
is guarded by the `resolved` flag, so only the first one to fire kills the
timer/process, clears `isChecking` and resolves. -/
def handlerStep (s : CallState) : HandlerEvent → CallState
  | HandlerEvent.timeout =>
      if ¬s.resolved ∧ ¬s.killed then
        { resolved := true, killed := true, isChecking := false,
          resolveCalls := s.resolveCalls ++ [false] }
      else s
  | HandlerEvent.close code outputLen =>
      if ¬s.resolved then
        { s with
          resolved := true
          isChecking := false
          resolveCalls := s.resolveCalls ++ [decide (code = 0 ∧ 0 < outputLen)] }
      else s
  | HandlerEvent.procError =>
      if ¬s.resolved then
        { s with
          resolved := true
          isChecking := false
          resolveCalls := s.resolveCalls ++ [false] }
      else s

/-- State right after `checkCameraAvailable` spawns the subprocess:
`isChecking` was just set, nothing resolved yet. -/
def callInit : CallState :=
  { resolved := false, killed := false, isChecking := true, resolveCalls := [] }

/-- The boolean a given handler event resolves with when it is the first to
fire: `false` for the timeout and the error handler, `code === 0 && output
nonempty` for the close handler. -/
def handlerResult : HandlerEvent → Bool
  | HandlerEvent.timeout => false
  | HandlerEvent.close code outputLen => decide (code = 0 ∧ 0 < outputLen)
  | HandlerEvent.procError => false

/-- Construction-time state of the tethered-event service, from the field
initializers (camera.ts lines 472-483): disconnected, not shutting down, not
paused, no timers, no monitor process, nothing emitted. -/
def initialState : ServiceState :=
  { connectionState := CameraConnectionState.DISCONNECTED
    isShuttingDown := false
    isPaused := false
    reconnectTimer := none
    killTimer := none
    monitorProcess := false
    statusEvents := []
    photoEvents := []
    errorEvents := [] }

end EventVariant

namespace PollVariant

/-- `maxReconnectInterval` of the poll/queue `CameraService`
(`src/unnamed/part_000` line 84): 30 seconds in ms. -/
def maxReconnectInterval : Nat := 30000

/-- Reconnection-related fields of the poll/queue `CameraService`
(`src/unnamed/part_000`).  Timers carry the delay they were armed with. -/
structure ReconnState where
  connectionState : CameraConnectionState
  reconnectAttempts : Nat
  reconnectTimer : Option Nat
  pollTimer : Option Nat
  statusEvents : List StatusEvent
deriving DecidableEq

/-- `stopAllTimers` (part_000 lines 112-121). -/
def stopAllTimers (s : ReconnState) : ReconnState :=
  { s with pollTimer := none, reconnectTimer := none }

/-- `scheduleReconnect` (part_000 lines 627-648): clears existing timers,
arms a single timer with `min(reconnectInterval * 2^reconnectAttempts,
maxReconnectInterval)` and then increments `reconnectAttempts`.
`base` is the configured `reconnectInterval` (constructor default 5000). -/
def scheduleReconnect (base : Nat) (s : ReconnState) : ReconnState :=
  let s₁ := stopAllTimers s
  let backoffTime := min (base * 2 ^ s₁.reconnectAttempts) maxReconnectInterval
  { s₁ with
    reconnectTimer := some backoffTime
    reconnectAttempts := s₁.reconnectAttempts + 1 }

/-- `setConnectionState` (part_000 lines 653-670): on a change it assigns,
emits a status event, and when the new state is `CONNECTED` resets
`reconnectAttempts` to 0; a call with the current state is a no-op. -/
def setConnectionState (s : ReconnState) (state : CameraConnectionState) :
    ReconnState :=
  if s.connectionState ≠ state then
    let s₁ := { s with
      connectionState := state
      statusEvents := s.statusEvents ++
        [⟨decide (state = CameraConnectionState.CONNECTED), state⟩] }
    if state = CameraConnectionState.CONNECTED then
      { s₁ with reconnectAttempts := 0 }
    else s₁
  else s

/-- Numeric value of a digit run, as `parseInt(digits, 10)`. -/
def digitsVal (cs : List Char) : Nat :=
  cs.foldl (fun n c => n * 10 + (c.toNat - '0'.toNat)) 0

/-- Attempt to read `(\d+)CANON` at the head of `cs` (the regex `i` flag
folds the case of `CANON`): the numeric value of the digit run and the
number of characters consumed through the end of `CANON`.  The pattern has
no end anchor, so anything may follow the consumed part. -/
def digitsCanonAt (cs : List Char) : Option (Nat × Nat) :=
  let digits := cs.takeWhile Char.isDigit
  if digits = [] then none
  else
    let rest := cs.drop digits.length
    if EventVariant.lowerChars (rest.take 5) = "canon".toList then
      some (digitsVal digits, digits.length + 5)
    else none

/-- Whether a run of characters is acceptable to the regex class `[^'"\n]`:
no single quote (39), double quote (34) or newline (10). -/
def forbiddenFree (cs : List Char) : Bool :=
  cs.all fun c => !(c.toNat = 39 || c.toNat = 34 || c.toNat = 10)

/-- One `matchAll` hit of `\/[^'"\n]*\/(\d+)CANON` (part_000 line 423) on one
candidate chunk of the `--list-folders` output (the chunks are delimited by
the quotes and newlines the character class excludes).  The leftmost match
starts at the chunk's first `/`; the greedy `[^'"\n]*` middle extends to the
last later `/` followed directly by digits and case-folded `CANON`; captured
group 2 (the selected path) runs from that first slash through the end of
`CANON` — with no end anchor the capture truncates whatever follows, so
`/a/103CANONICAL` yields `/a/103CANON` — and group 3's digit run gives the
numeric prefix. -/
def canonMatch (path : String) : Option (String × Nat) :=
  let cs := path.toList
  let sites := (List.range cs.length).filterMap fun j =>
    match cs.drop j with
    | '/' :: rest =>
        match digitsCanonAt rest with
        | some vc => some (j, vc.1, j + 1 + vc.2)
        | none => none
    | _ => none
  match cs.findIdx? fun c => c == '/' with
  | none => none
  | some i0 =>
      match (sites.filter fun s =>
          decide (i0 < s.1) &&
            forbiddenFree ((cs.take s.1).drop (i0 + 1))).getLast? with
      | none => none
      | some s => some (String.mk ((cs.take s.2.2).drop i0), s.2.1)

/-- First element of maximal `number`, ties resolved to the earlier element:
the head of the listing stably sorted by descending `number`, exactly what
`folders.sort((a, b) => b.number - a.number)` followed by `folders[0]`
computes. -/
def pickHighest : List (String × Nat) → Option (String × Nat)
  | [] => none
  | f :: fs => some (fs.foldl (fun best g => if best.2 < g.2 then g else best) f)

/-- `findCanonFolder` (part_000 lines 400-451).  `exitCode` is the
`--list-folders` subprocess outcome (`none` models its `error` event, which
resolves `null`); `listing` holds the quote/newline-delimited chunks of the
raw output the `matchAll` scans.  On a zero exit the matches of the
`(\d+)CANON` pattern are collected as (captured path, numeric prefix) pairs
and the highest-numbered one's path is selected; a non-zero exit, a spawn
error, or an empty match list yields `none` (`null`). -/
def findCanonFolder (exitCode : Option Int) (listing : List String) :
    Option String :=
  match exitCode with
  | none => none
  | some code =>
      if code ≠ 0 then none
      else
        let folders := listing.filterMap canonMatch
        (pickHighest folders).map Prod.fst

/-- Fields of the poll/queue `CameraService` that the download pipeline
touches (part_000 lines 78-80), plus the record of pipeline invocations and
emitted `photo-captured` events.  `inFlight` is the identifier shifted off
the queue whose `downloadFile` promise is pending; it doubles as
`isProcessingQueue`, which is `true` exactly while a download is awaited
(every other stretch of `processDownloadQueue` runs atomically on the event
loop). -/
structure QueueState where
  downloadedFiles : List String
  downloadQueue : List String
  inFlight : Option String
  downloadInvocations : List String
  photoEvents : List String
deriving DecidableEq

/-- `Set.add`: append only when absent. -/
def setAdd (f : String) (l : List String) : List String :=
  if f ∈ l then l else l ++ [f]

/-- The enqueue loop of `checkAndDownloadNewPhotos` (part_000 lines 231-235):
each new file is pushed unless already queued. -/
def enqueueNew (queue : List String) (newFiles : List String) : List String :=
  newFiles.foldl (fun q f => if f ∈ q then q else q ++ [f]) queue

/-- Synchronous front of `processDownloadQueue` (part_000 lines 249-258): if
no drain is running (`isProcessingQueue`, here `inFlight.isSome`) and the
queue is nonempty, shift the head and invoke `downloadFile` on it, running up
to that call's first `await`. -/
def tryStartDrain (s : QueueState) : QueueState :=
  if s.inFlight = none then
    match s.downloadQueue with
    | [] => s
    | f :: rest =>
        { s with
          downloadQueue := rest
          inFlight := some f
          downloadInvocations := s.downloadInvocations ++ [f] }
  else s

/-- Atomic step of `checkAndDownloadNewPhotos` (part_000 lines 214-244) that
runs when its `listCameraFiles()` await resolves with `cameraFiles`: filter
out already-downloaded files, enqueue the rest (skipping queued ones), and
call `processDownloadQueue()` — without awaiting it. -/
def pollStep (cameraFiles : List String) (s : QueueState) : QueueState :=
  let newFiles := cameraFiles.filter fun f => decide (f ∉ s.downloadedFiles)
  if newFiles = [] then s
  else tryStartDrain { s with downloadQueue := enqueueNew s.downloadQueue newFiles }

/-- Atomic step of `processDownloadQueue` (part_000 lines 256-270) that runs
when the pending `downloadFile` await resolves: on success (part_000 lines
546-561 inside `downloadFile`) one `photo-captured` event was emitted; either
way the identifier is added to `downloadedFiles`; then the `while` loop
continues synchronously, shifting and invoking the next queued identifier if
any, else clearing `isProcessingQueue`. -/
def finishStep (success : Bool) (s : QueueState) : QueueState :=
  match s.inFlight with
  | none => s
  | some f =>
      tryStartDrain { s with
        downloadedFiles := setAdd f s.downloadedFiles
        photoEvents := s.photoEvents ++ if success then [f] else []
        inFlight := none }

/-- The atomic steps the event loop can interleave during one session:
`poll files` is a poll tick whose camera listing returned `files`, and
`finish success` is the completion of the in-flight `downloadFile`. -/
inductive QStep where
  | poll (cameraFiles : List String)
  | finish (success : Bool)

/-- One atomic step. -/
def qStep (s : QueueState) : QStep → QueueState
  | QStep.poll files => pollStep files s
  | QStep.finish b => finishStep b s

/-- Session start: everything empty (part_000 lines 78-80 field initializers). -/
def qInit : QueueState :=
  { downloadedFiles := [], downloadQueue := [], inFlight := none,
    downloadInvocations := [], photoEvents := [] }

/-- A whole schedule of steps. -/
def qRun (s : QueueState) (tr : List QStep) : QueueState := tr.foldl qStep s

/-- A schedule is serialized when every poll tick executes while no download
is in flight — the overlapping-poll guard §5 of the spec demands. -/
def Serialized : QueueState → List QStep → Prop
  | _, [] => True
  | s, QStep.poll files :: tr => s.inFlight = none ∧ Serialized (pollStep files s) tr
  | s, QStep.finish b :: tr => Serialized (finishStep b s) tr

/-- Whether, along a schedule from `s`, identifier `x`'s `downloadFile`
completes successfully — i.e. some `finish true` step fires while `x` is the
in-flight identifier.  This is the event at which `downloadFile` (part_000
lines 546-561) emits its `photo-captured` event for `x`. -/
def successfullyDownloaded : QueueState → List QStep → String → Bool
  | _, [], _ => false
  | s, QStep.poll files :: tr, x =>
      successfullyDownloaded (pollStep files s) tr x
  | s, QStep.finish b :: tr, x =>
      (b && s.inFlight == some x) ||
        successfullyDownloaded (finishStep b s) tr x

/-- Invariant of the download pipeline maintained by serialized schedules:
the queue holds no duplicates, nothing queued is already handled or
currently downloading, the in-flight identifier is not yet handled, each
identifier has been handed to `downloadFile` exactly once iff it is handled
or in flight, and at most one `photo-captured` event exists per handled
identifier. -/
def QInv (s : QueueState) : Prop :=
  s.downloadQueue.Nodup ∧
  (∀ f ∈ s.downloadQueue, f ∉ s.downloadedFiles) ∧
  (∀ f ∈ s.downloadQueue, s.inFlight ≠ some f) ∧
  (∀ f, s.inFlight = some f → f ∉ s.downloadedFiles) ∧
  (∀ id, s.downloadInvocations.count id =
    (if id ∈ s.downloadedFiles then 1 else 0) +
    (if s.inFlight = some id then 1 else 0)) ∧
  (∀ id, s.photoEvents.count id ≤ if id ∈ s.downloadedFiles then 1 else 0)

/-- Construction-time reconnection state of the poll/queue service, from the
field initializers (part_000 lines 73-84). -/
def reconnInit : ReconnState :=
  { connectionState := CameraConnectionState.DISCONNECTED
    reconnectAttempts := 0
    reconnectTimer := none
    pollTimer := none
    statusEvents := [] }

end PollVariant

namespace SyncVariant

/-- Fields of the sync variant (`src/src/services/camera.ts`, first section)
that `resetSession` and `findFirstNewPhotoIndex` read or write.
`sessionStartTime` is in ms since epoch. -/
structure SyncState where
  connectionState : CameraConnectionState
  sessionStartTime : Int
deriving DecidableEq

/-- `resetSession` (camera.ts lines 68-71): assigns `sessionStartTime = new
Date()` (the current time `now`) and nothing else; per its own doc comment,
"Any photos taken before NOW will be ignored in future syncs." -/
def resetSession (now : Int) (s : SyncState) : SyncState :=
  { s with sessionStartTime := now }

/-- Parsed result of `getFileInfo` for one on-camera file index: corrected
capture time (ms) and device filename. -/
structure FileInfo where
  time : Int
  filename : String
deriving DecidableEq

/-- `MAX_SCAN_DEPTH` (camera.ts line 253). -/
def MAX_SCAN_DEPTH : Nat := 50

/-- The backward scan loop of `findFirstNewPhotoIndex` (camera.ts lines
256-279), iterating `i` downward with `k` iterations left.  `fileInfo i` is
`getFileInfo(i)` (`none` on parse failure or error, which the loop skips);
`fileExists` is `checkFileExists` against the photos directory.  A file older
than the session start, or already present on disk, triggers the early
return `i === totalFiles ? null : i + 1` (encoded `some none` / `some (some
(i+1))`); falling through all iterations yields `none`. -/
def scanLoop (fileInfo : Nat → Option FileInfo) (fileExists : String → Bool)
    (sessionStartTime : Int) (totalFiles : Nat) :
    Nat → Nat → Option (Option Nat)
  | _, 0 => none
  | i, k + 1 =>
      match fileInfo i with
      | none => scanLoop fileInfo fileExists sessionStartTime totalFiles (i - 1) k
      | some info =>
          if info.time < sessionStartTime then
            some (if i = totalFiles then none else some (i + 1))
          else if fileExists info.filename then
            some (if i = totalFiles then none else some (i + 1))
          else scanLoop fileInfo fileExists sessionStartTime totalFiles (i - 1) k

/-- `findFirstNewPhotoIndex` (camera.ts lines 252-283): scan backwards from
`totalFiles` down to `stopIndex = max(1, totalFiles - MAX_SCAN_DEPTH)`;
an early return yields its value (`none` = JS `null` = "no new photos"),
and completing the scan yields `some stopIndex`. -/
def findFirstNewPhotoIndex (fileInfo : Nat → Option FileInfo)
    (fileExists : String → Bool) (sessionStartTime : Int) (totalFiles : Nat) :
    Option Nat :=
  let stopIndex := max 1 (totalFiles - MAX_SCAN_DEPTH)
  match scanLoop fileInfo fileExists sessionStartTime totalFiles totalFiles
      (totalFiles + 1 - stopIndex) with
  | some r => r
  | none => some stopIndex

end SyncVariant

namespace EventVariant

/-- A call with the current state is a no-op. -/
theorem setConnectionState_same (t : ServiceState) (v : CameraConnectionState)
    (h : t.connectionState = v) : setConnectionState t v = t := by
  simp [setConnectionState, h]

/-- After any call, the stored state equals the argument. -/
theorem setConnectionState_sets (s : ServiceState) (v : CameraConnectionState) :
    (setConnectionState s v).connectionState = v := by
  by_cases h : s.connectionState = v
  · simp [setConnectionState, h]
  · simp [setConnectionState, h]

/-- Iterating a call whose value the state already holds changes nothing. -/
theorem setConnectionState_iterate_fixed (v : CameraConnectionState) :
    ∀ (m : Nat) (t : ServiceState), t.connectionState = v →
      (fun u => setConnectionState u v)^[m] t = t := by
  intro m
  induction m with
  | zero => intro t _; rfl
  | succ k ih =>
      intro t ht
      rw [Function.iterate_succ_apply, setConnectionState_same t v ht, ih t ht]

/-- C2: a `setConnectionState` call publishes a status event exactly when the
argument differs from the current connection state — a call with the current
value is a no-op, a call with a different value appends exactly one status
event, and `n ≥ 1` consecutive calls with the same (initially different)
value publish exactly one status event in total, the first. -/
theorem C2_state_monotonic_announcement (s : ServiceState)
    (v : CameraConnectionState) (n : Nat) (hn : 1 ≤ n)
    (hne : s.connectionState ≠ v) :
    (∀ t : ServiceState, t.connectionState = v → setConnectionState t v = t) ∧
    (setConnectionState s v).statusEvents = s.statusEvents ++
      [⟨decide (v = CameraConnectionState.CONNECTED), v⟩] ∧
    ((fun u => setConnectionState u v)^[n] s).statusEvents = s.statusEvents ++
      [⟨decide (v = CameraConnectionState.CONNECTED), v⟩] := by
  have hone : (setConnectionState s v).statusEvents = s.statusEvents ++
      [⟨decide (v = CameraConnectionState.CONNECTED), v⟩] := by
    simp [setConnectionState, hne]
  refine ⟨fun t ht => setConnectionState_same t v ht, hone, ?_⟩
  obtain ⟨m, rfl⟩ : ∃ m, n = m + 1 := ⟨n - 1, (Nat.succ_pred_eq_of_pos hn).symm⟩
  rw [Function.iterate_succ_apply,
    setConnectionState_iterate_fixed v m (setConnectionState s v)
      (setConnectionState_sets s v), hone]

/-- Witness for C2 at a concrete state and three consecutive calls. -/
theorem C2_state_monotonic_announcement_witness :
    1 ≤ 3 ∧ initialState.connectionState ≠ CameraConnectionState.CONNECTED ∧
    ((fun u => setConnectionState u CameraConnectionState.CONNECTED)^[3]
        initialState).statusEvents =
      initialState.statusEvents ++ [⟨true, CameraConnectionState.CONNECTED⟩] := by
  refine ⟨by decide, by decide, ?_⟩
  have h := C2_state_monotonic_announcement initialState
    CameraConnectionState.CONNECTED 3 (by decide) (by decide)
  exact h.2.2

/-- C9: `stop()` always emits exactly one final status event
`{connected: false, state: DISCONNECTED}` and leaves the state
`DISCONNECTED`, for every starting state — including one already
`DISCONNECTED` — because it assigns the field and emits directly;
`setConnectionState`'s emit-only-on-change suppression (which would make the
same call a no-op) does not apply. -/
theorem C9_stop_always_emits_final_status (s : ServiceState) :
    (stop s).statusEvents =
      s.statusEvents ++ [⟨false, CameraConnectionState.DISCONNECTED⟩] ∧
    (stop s).connectionState = CameraConnectionState.DISCONNECTED ∧
    (∀ t : ServiceState, t.connectionState = CameraConnectionState.DISCONNECTED →
      setConnectionState t CameraConnectionState.DISCONNECTED = t) := by
  exact ⟨rfl, rfl, fun t ht =>
    setConnectionState_same t CameraConnectionState.DISCONNECTED ht⟩

/-- Witness for C9 at the construction-time state, which is already
`DISCONNECTED` and has never connected: `stop` still emits the final status
event, while `setConnectionState DISCONNECTED` would emit nothing. -/
theorem C9_stop_always_emits_final_status_witness :
    (stop initialState).statusEvents =
      [⟨false, CameraConnectionState.DISCONNECTED⟩] ∧
    setConnectionState initialState CameraConnectionState.DISCONNECTED =
      initialState := by
  have h := C9_stop_always_emits_final_status initialState
  exact ⟨h.1, h.2.2 initialState rfl⟩

/-- Photo and error streams after the retry loop: a photo event is appended
exactly when some probe in the remaining window succeeds, an error event
naming the file exactly otherwise. -/
theorem waitLoop_spec (accessible : Nat → Bool) (fn pp : String)
    (s : ServiceState) : ∀ (remaining i : Nat),
    (waitLoop accessible fn pp s i remaining).photoEvents = s.photoEvents ++
      (if (List.range' i remaining).any accessible then [⟨fn, pp⟩] else []) ∧
    (waitLoop accessible fn pp s i remaining).errorEvents = s.errorEvents ++
      (if (List.range' i remaining).any accessible then []
       else [⟨"Photo file not ready: " ++ fn⟩]) := by
  intro remaining
  induction remaining with
  | zero => intro i; simp [waitLoop]
  | succ k ih =>
      intro i
      rw [List.range'_succ]
      cases h : accessible i with
      | true => simp [waitLoop, h]
      | false =>
          have hunf : waitLoop accessible fn pp s i (k + 1) =
              waitLoop accessible fn pp s (i + 1) k := by
            simp [waitLoop, h]
          rw [hunf, List.any_cons, h, Bool.false_or]
          exact ih (i + 1)

/-- C7: for every capture event that names a file, the service polls for the
file's existence with bounded retries — `maxRetries = 10` attempts at
`retryDelay = 100` ms intervals; if some attempt finds the file accessible
exactly one `photo` event is emitted, and if all attempts fail exactly one
`error` event naming that specific file is emitted instead; the loop is a
total function returning a state (no exception escapes into the state
machine). -/
theorem C7_bounded_file_wait (accessible : Nat → Bool) (job : WaitJob)
    (s : ServiceState) :
    maxRetries = 10 ∧ retryDelay = 100 ∧
    (waitForFileAndNotify accessible job s).photoEvents = s.photoEvents ++
      (if (List.range maxRetries).any accessible
       then [⟨job.filename, job.photoPath⟩] else []) ∧
    (waitForFileAndNotify accessible job s).errorEvents = s.errorEvents ++
      (if (List.range maxRetries).any accessible then []
       else [⟨"Photo file not ready: " ++ job.filename⟩]) := by
  have h := waitLoop_spec accessible job.filename job.photoPath s maxRetries 0
  rw [List.range_eq_range']
  exact ⟨rfl, rfl, h.1, h.2⟩

end EventVariant

namespace PollVariant

/-- Each `scheduleReconnect` call increments the attempt counter by one. -/
theorem scheduleReconnect_attempts (base : Nat) (s : ReconnState) :
    (scheduleReconnect base s).reconnectAttempts = s.reconnectAttempts + 1 := rfl

/-- The attempt counter after `n` consecutive `scheduleReconnect` calls. -/
theorem scheduleReconnect_iterate_attempts (base : Nat) :
    ∀ (n : Nat) (s : ReconnState),
      ((scheduleReconnect base)^[n] s).reconnectAttempts =
        s.reconnectAttempts + n := by
  intro n
  induction n with
  | zero => intro s; rfl
  | succ k ih =>
      intro s
      rw [Function.iterate_succ_apply', scheduleReconnect_attempts, ih s,
        Nat.add_assoc]

/-- C8: starting from a freshly-reset counter, the delay armed by the `n`-th
consecutive `scheduleReconnect` call is `min(base * 2^(n-1), 30000)` ms; the
counter is incremented on every call, and every transition into `CONNECTED`
resets it to 0. -/
theorem C8_exponential_backoff (base : Nat) (s : ReconnState) (n : Nat)
    (h0 : s.reconnectAttempts = 0) (hn : 1 ≤ n) :
    ((scheduleReconnect base)^[n] s).reconnectTimer =
      some (min (base * 2 ^ (n - 1)) maxReconnectInterval) ∧
    maxReconnectInterval = 30000 ∧
    (∀ t : ReconnState,
      (scheduleReconnect base t).reconnectAttempts = t.reconnectAttempts + 1) ∧
    (∀ t : ReconnState, t.connectionState ≠ CameraConnectionState.CONNECTED →
      (setConnectionState t CameraConnectionState.CONNECTED).reconnectAttempts
        = 0) := by
  refine ⟨?_, rfl, fun t => rfl, fun t ht => by simp [setConnectionState, ht]⟩
  obtain ⟨m, rfl⟩ : ∃ m, n = m + 1 := ⟨n - 1, (Nat.succ_pred_eq_of_pos hn).symm⟩
  rw [Function.iterate_succ_apply']
  have hm : ((scheduleReconnect base)^[m] s).reconnectAttempts = m := by
    rw [scheduleReconnect_iterate_attempts base m s, h0, Nat.zero_add]
  show some (min (base * 2 ^ ((scheduleReconnect base)^[m] s).reconnectAttempts)
      maxReconnectInterval) = _
  rw [hm]
  rfl

/-- Witness for C8: from the construction-time state with base 5000 ms, the
third consecutive reconnect arms `min(5000 * 2^2, 30000) = 20000` ms. -/
theorem C8_exponential_backoff_witness :
    reconnInit.reconnectAttempts = 0 ∧ 1 ≤ 3 ∧
    ((scheduleReconnect 5000)^[3] reconnInit).reconnectTimer =
      some (min (5000 * 2 ^ 2) maxReconnectInterval) ∧
    min (5000 * 2 ^ 2) maxReconnectInterval = 20000 := by
  have h := C8_exponential_backoff 5000 reconnInit 3 rfl (by decide)
  exact ⟨rfl, by decide, h.1, by decide⟩

/-- The selection fold of `folders.sort((a, b) => b.number - a.number)`
followed by `folders[0]` returns an element of the list whose number bounds
every other. -/
theorem pickFold_spec : ∀ (fs : List (String × Nat)) (a : String × Nat),
    fs.foldl (fun best g => if best.2 < g.2 then g else best) a ∈ a :: fs ∧
    ∀ g ∈ a :: fs, g.2 ≤
      (fs.foldl (fun best g => if best.2 < g.2 then g else best) a).2 := by
  intro fs
  induction fs with
  | nil =>
      intro a
      refine ⟨List.mem_cons_self a [], ?_⟩
      intro g hg
      rcases List.mem_cons.mp hg with rfl | h
      · exact Nat.le_refl _
      · exact absurd h (List.not_mem_nil g)
  | cons b rest ih =>
      intro a
      have hfold : (b :: rest).foldl
          (fun best g => if best.2 < g.2 then g else best) a =
          rest.foldl (fun best g => if best.2 < g.2 then g else best)
            (if a.2 < b.2 then b else a) := rfl
      obtain ⟨hmem, hmax⟩ := ih (if a.2 < b.2 then b else a)
      rw [hfold]
      constructor
      · rcases List.mem_cons.mp hmem with heq | hin
        · rw [heq]
          by_cases hab : a.2 < b.2
          · rw [if_pos hab]
            exact List.mem_cons_of_mem a (List.mem_cons_self b rest)
          · rw [if_neg hab]
            exact List.mem_cons_self a (b :: rest)
        · exact List.mem_cons_of_mem a (List.mem_cons_of_mem b hin)
      · intro g hg
        rcases List.mem_cons.mp hg with rfl | hg'
        · refine Nat.le_trans ?_ (hmax _ (List.mem_cons_self _ rest))
          by_cases hab : g.2 < b.2
          · rw [if_pos hab]
            exact Nat.le_of_lt hab
          · rw [if_neg hab]
        · rcases List.mem_cons.mp hg' with rfl | hg''
          · refine Nat.le_trans ?_ (hmax _ (List.mem_cons_self _ rest))
            by_cases hab : a.2 < g.2
            · rw [if_pos hab]
            · rw [if_neg hab]
              exact Nat.le_of_not_lt hab
          · exact hmax g (List.mem_cons_of_mem _ hg'')

/-- On a nonempty match list, `pickHighest` returns a listed pair of maximal
number. -/
theorem pickHighest_spec (l : List (String × Nat)) (hne : l ≠ []) :
    ∃ f, pickHighest l = some f ∧ f ∈ l ∧ ∀ g ∈ l, g.2 ≤ f.2 := by
  cases l with
  | nil => exact absurd rfl hne
  | cons a fs =>
      obtain ⟨hmem, hmax⟩ := pickFold_spec fs a
      exact ⟨_, rfl, hmem, hmax⟩

/-- C4: whenever the third discovery step exits zero and its listing yields a
non-empty set of `(\d+)CANON` matches, the selected path is a matched path
whose numeric prefix is maximal among all matches — on `100CANON`,
`103CANON`, `87CANON` the path prefixed `103` — and, since the regex has no
end anchor, an entry like `/a/103CANONICAL` matches with its capture
truncated at `CANON`; a spawn error, a non-zero exit, or a listing with no
match yields `none` (`null`). -/
theorem C4_discovery_folder_selection :
    (∀ listing : List String, listing.filterMap canonMatch ≠ [] →
      ∃ p n, (p, n) ∈ listing.filterMap canonMatch ∧
        findCanonFolder (some 0) listing = some p ∧
        ∀ q ∈ listing.filterMap canonMatch, q.2 ≤ n) ∧
    findCanonFolder (some 0)
        ["/store_00010001/DCIM/100CANON", "/store_00010001/DCIM/103CANON",
         "/store_00010001/DCIM/87CANON"] =
      some "/store_00010001/DCIM/103CANON" ∧
    findCanonFolder (some 0) ["/a/103CANONICAL"] = some "/a/103CANON" ∧
    (∀ listing, findCanonFolder none listing = none) ∧
    (∀ (c : Int) (listing : List String), c ≠ 0 →
      findCanonFolder (some c) listing = none) ∧
    (∀ (ec : Option Int) (listing : List String),
      (∀ p ∈ listing, canonMatch p = none) →
      findCanonFolder ec listing = none) := by
  refine ⟨?_, by decide, by decide, fun listing => rfl, ?_, ?_⟩
  · intro listing hne
    obtain ⟨f, hpick, hmem, hmax⟩ :=
      pickHighest_spec (listing.filterMap canonMatch) hne
    refine ⟨f.1, f.2, ?_, ?_, hmax⟩
    · exact hmem
    · simp [findCanonFolder, hpick]
  · intro c listing hc
    simp [findCanonFolder, hc]
  · intro ec listing hnone
    cases ec with
    | none => rfl
    | some c =>
        by_cases hc : c = 0
        · subst hc
          have hnil : listing.filterMap canonMatch = [] := by
            rw [List.filterMap_eq_nil_iff]
            exact hnone
          simp [findCanonFolder, hnil, pickHighest]
        · simp [findCanonFolder, hc]

/-- Witness for C4: the three-folder listing has a nonempty match set and
selects the `103` path; a non-zero exit and a matchless listing yield
`none`. -/
theorem C4_discovery_folder_selection_witness :
    (["/store_00010001/DCIM/100CANON", "/store_00010001/DCIM/103CANON",
      "/store_00010001/DCIM/87CANON"].filterMap canonMatch ≠ [] ∧
     ∃ p n, (p, n) ∈ ["/store_00010001/DCIM/100CANON",
        "/store_00010001/DCIM/103CANON",
        "/store_00010001/DCIM/87CANON"].filterMap canonMatch ∧
       findCanonFolder (some 0)
         ["/store_00010001/DCIM/100CANON", "/store_00010001/DCIM/103CANON",
          "/store_00010001/DCIM/87CANON"] = some p ∧
       ∀ q ∈ ["/store_00010001/DCIM/100CANON",
          "/store_00010001/DCIM/103CANON",
          "/store_00010001/DCIM/87CANON"].filterMap canonMatch, q.2 ≤ n) ∧
    ((1 : Int) ≠ 0 ∧ findCanonFolder (some 1) ["/a/103CANON"] = none) ∧
    ((∀ p ∈ ["/a/b", "/NOCANON"], canonMatch p = none) ∧
      findCanonFolder (some 0) ["/a/b", "/NOCANON"] = none) := by
  have h := C4_discovery_folder_selection
  refine ⟨⟨by decide, h.1 _ (by decide)⟩,
    ⟨by decide, h.2.2.2.2.1 1 ["/a/103CANON"] (by decide)⟩,
    ⟨by decide, h.2.2.2.2.2 (some 0) ["/a/b", "/NOCANON"] (by decide)⟩⟩

end PollVariant

namespace EventVariant

/-- One gate step preserves the link between the busy flag and the number of
in-flight subprocesses. -/
theorem gateStep_inv (s : GateState) (op : GateOp)
    (h : s.outstanding = if s.isChecking then 1 else 0) :
    (gateStep s op).outstanding =
      if (gateStep s op).isChecking then 1 else 0 := by
  cases op with
  | call =>
      by_cases hc : s.isChecking
      · simp [gateStep, hc, h]
      · simp [gateStep, hc, h]
  | settle b =>
      by_cases ho : 0 < s.outstanding
      · have h1 : s.outstanding = 1 := by
          by_cases hc : s.isChecking <;> simp [hc] at h <;> omega
        simp [gateStep, ho, h1]
      · cases hcv : s.isChecking with
        | true => rw [hcv, if_pos rfl] at h; omega
        | false =>
            rw [hcv] at h
            simp at h
            simp [gateStep, ho, h, hcv]

/-- The busy-flag/in-flight link holds along any schedule. -/
theorem gateFold_inv : ∀ (ops : List GateOp) (s : GateState),
    s.outstanding = (if s.isChecking then 1 else 0) →
    (ops.foldl gateStep s).outstanding =
      if (ops.foldl gateStep s).isChecking then 1 else 0 := by
  intro ops
  induction ops with
  | nil => intro s h; exact h
  | cons op rest ih => intro s h; exact ih (gateStep s op) (gateStep_inv s op h)

/-- C5: at no point are two presence-check subprocesses in flight
simultaneously — along every schedule of calls and settlements from service
start, at most one spawned `--summary` subprocess is unsettled — and a call
issued while a previous check is outstanding (`isChecking`) resolves `false`
immediately, changing nothing but the result list: no second subprocess is
spawned. -/
theorem C5_serialized_presence_checks (ops : List GateOp) (s : GateState)
    (hbusy : s.isChecking = true) :
    (gateRun ops).outstanding ≤ 1 ∧
    gateStep s GateOp.call = { s with results := s.results ++ [false] } := by
  constructor
  · have h := gateFold_inv ops gateInit rfl
    rw [gateRun]
    rw [h]
    split <;> omega
  · simp [gateStep, hbusy]

/-- Witness for C5: after one call a check is outstanding, and a second call
resolves `false` without touching `spawnCount` or `outstanding`. -/
theorem C5_serialized_presence_checks_witness :
    (gateRun [GateOp.call]).isChecking = true ∧
    (gateRun [GateOp.call, GateOp.call]).outstanding ≤ 1 ∧
    gateStep (gateRun [GateOp.call]) GateOp.call =
      { gateRun [GateOp.call] with
        results := (gateRun [GateOp.call]).results ++ [false] } := by
  have h := C5_serialized_presence_checks [GateOp.call, GateOp.call]
    (gateRun [GateOp.call]) rfl
  exact ⟨rfl, h.1, h.2⟩

/-- Once resolved, every later callback firing is a no-op. -/
theorem handlerStep_after_resolved (s : CallState) (h : s.resolved = true) :
    ∀ e, handlerStep s e = s := by
  intro e
  cases e <;> simp [handlerStep, h]

/-- Once resolved, any sequence of later callbacks is a no-op. -/
theorem handlerFold_after_resolved : ∀ (es : List HandlerEvent) (s : CallState),
    s.resolved = true → es.foldl handlerStep s = s := by
  intro es
  induction es with
  | nil => intro s _; rfl
  | cons e rest ih =>
      intro s h
      rw [List.foldl_cons, handlerStep_after_resolved s h e, ih s h]

/-- The first callback to fire settles the call with its own result and
clears the busy flag. -/
theorem handlerStep_first (e : HandlerEvent) :
    (handlerStep callInit e).resolved = true ∧
    (handlerStep callInit e).isChecking = false ∧
    (handlerStep callInit e).resolveCalls = [handlerResult e] := by
  cases e <;> exact ⟨rfl, rfl, rfl⟩

/-- C10: every `checkCameraAvailable` invocation settles exactly once with a
boolean and never rejects — whichever of the 5-second timeout, the `close`
handler and the `error` handler fire, in whatever order, `resolve` is reached
exactly once, with the value determined by the first event — and the
`isChecking` busy flag is `false` once the call settles, so a later presence
check is never permanently blocked. -/
theorem C10_settles_exactly_once (e : HandlerEvent) (es : List HandlerEvent) :
    ((e :: es).foldl handlerStep callInit).resolveCalls = [handlerResult e] ∧
    ((e :: es).foldl handlerStep callInit).isChecking = false ∧
    ((e :: es).foldl handlerStep callInit).resolved = true := by
  obtain ⟨h1, h2, h3⟩ := handlerStep_first e
  rw [List.foldl_cons, handlerFold_after_resolved es (handlerStep callInit e) h1]
  exact ⟨h3, h2, h1⟩

/-- A paused service drops every stdout line before parsing: no event, no
queued wait job. -/
theorem parsePhotoEvent_paused (t : ServiceState) (h : t.isPaused = true)
    (line : String) : parsePhotoEvent t line = (t, none) := by
  simp [parsePhotoEvent, h]

/-- A paused service is left untouched by any stream of stdout lines. -/
theorem handleLine_paused_foldl (accessible : Nat → Bool) :
    ∀ (lines : List String) (t : ServiceState), t.isPaused = true →
      lines.foldl (handleLine accessible) t = t := by
  intro lines
  induction lines with
  | nil => intro t _; rfl
  | cons line rest ih =>
      intro t h
      rw [List.foldl_cons]
      have : handleLine accessible t line = t := by
        rw [handleLine, parsePhotoEvent_paused t h line]
      rw [this, ih t h]

/-- C6: while paused, every capture event line produces zero `photo` events —
the line is discarded before parsing, with no wait job queued for later — and
after `resume()` a capture event line is processed normally: with the file
accessible it yields exactly one `photo` event. -/
theorem C6_pause_suppresses_emission (s : ServiceState)
    (accessible : Nat → Bool) (lines : List String) (line : String) :
    lines.foldl (handleLine accessible) (pause s) = pause s ∧
    (∀ t : ServiceState, t.isPaused = true → parsePhotoEvent t line = (t, none)) ∧
    (resume s).isPaused = false ∧
    (handleLine (fun _ => true) (resume s)
        "Saving file as session/photo_120000.jpg").photoEvents =
      (resume s).photoEvents ++
        [⟨"photo_120000.jpg", "/photos/photo_120000.jpg"⟩] := by
  refine ⟨handleLine_paused_foldl accessible lines (pause s) rfl,
    fun t ht => parsePhotoEvent_paused t ht line, rfl, rfl⟩

/-- Witness for C6 at the construction-time state: paused, two capture lines
produce no photo event; resumed, the same line produces one. -/
theorem C6_pause_suppresses_emission_witness :
    (pause initialState).isPaused = true ∧
    ["Saving file as session/photo_120000.jpg",
     "Saving file as session/photo_120001.jpg"].foldl
        (handleLine fun _ => true) (pause initialState) = pause initialState ∧
    (handleLine (fun _ => true) (resume initialState)
        "Saving file as session/photo_120000.jpg").photoEvents =
      [⟨"photo_120000.jpg", "/photos/photo_120000.jpg"⟩] := by
  have h := C6_pause_suppresses_emission initialState (fun _ => true)
    ["Saving file as session/photo_120000.jpg",
     "Saving file as session/photo_120001.jpg"]
    "Saving file as session/photo_120000.jpg"
  exact ⟨rfl, h.1, h.2.2.2⟩

end EventVariant

namespace SyncVariant

/-- C3 counterexample: one file on camera (index 1, filename
`IMG_0001.JPG`), already downloaded (it exists in the photos directory).
After `resetSession` at time 10, the claim says the identifier, detected
again, is treated as new and re-downloaded, i.e. `findFirstNewPhotoIndex`
should report index 1 as new; the code instead reports no new photos
(`null`) — both when the file's capture time 5 lies before the reset (the
reset makes older photos ignored, not fresh) and when the identifier
reappears with a fresh capture time 20 (the on-disk existence check, which
`resetSession` does not clear, marks it as already downloaded). -/
theorem C3_reset_counterexample :
    (resetSession 10 ⟨CameraConnectionState.CONNECTED, 0⟩).sessionStartTime
      = 10 ∧
    (resetSession 10 ⟨CameraConnectionState.CONNECTED, 0⟩).connectionState
      = CameraConnectionState.CONNECTED ∧
    findFirstNewPhotoIndex
      (fun i => if i = 1 then some ⟨5, "IMG_0001.JPG"⟩ else none)
      (fun f => f == "IMG_0001.JPG")
      (resetSession 10 ⟨CameraConnectionState.CONNECTED, 0⟩).sessionStartTime
      1 = none ∧
    findFirstNewPhotoIndex
      (fun i => if i = 1 then some ⟨20, "IMG_0001.JPG"⟩ else none)
      (fun f => f == "IMG_0001.JPG")
      (resetSession 10 ⟨CameraConnectionState.CONNECTED, 0⟩).sessionStartTime
      1 = none := by
  refine ⟨rfl, rfl, by decide, by decide⟩

/-- The backward scan returns early with `null` when the newest file is
older than the session start or already on disk. -/
theorem scanLoop_newest_handled (fileInfo : Nat → Option FileInfo)
    (fileExists : String → Bool) (sst : Int) (totalFiles : Nat)
    (info : FileInfo) (k : Nat) (h2 : fileInfo totalFiles = some info)
    (h3 : info.time < sst ∨ fileExists info.filename = true) :
    scanLoop fileInfo fileExists sst totalFiles totalFiles (k + 1) =
      some none := by
  rcases h3 with h | h
  · simp [scanLoop, h2, h]
  · by_cases ht : info.time < sst
    · simp [scanLoop, h2, ht]
    · simp [scanLoop, h2, ht, h]

/-- C3 amended: `resetSession()` sets `sessionStartTime` to the current time
and changes nothing else — `ConnectionState` is untouched — so that photos
captured before the reset are ignored in subsequent syncs; the on-disk
download bookkeeping is not cleared, so a previously-downloaded identifier
detected again (whether with its old capture time or already present in the
photos directory) is treated as handled, and no new-photo index is
reported for it. -/
theorem C3_reset_session_amended (s : SyncState) (now : Int)
    (fileInfo : Nat → Option FileInfo) (fileExists : String → Bool)
    (totalFiles : Nat) (info : FileInfo) (h1 : 1 ≤ totalFiles)
    (h2 : fileInfo totalFiles = some info)
    (h3 : info.time < now ∨ fileExists info.filename = true) :
    (resetSession now s).sessionStartTime = now ∧
    (resetSession now s).connectionState = s.connectionState ∧
    findFirstNewPhotoIndex fileInfo fileExists
      (resetSession now s).sessionStartTime totalFiles = none := by
  refine ⟨rfl, rfl, ?_⟩
  show findFirstNewPhotoIndex fileInfo fileExists now totalFiles = none
  have hm : max 1 (totalFiles - MAX_SCAN_DEPTH) ≤ totalFiles :=
    max_le h1 (Nat.sub_le _ _)
  have hcount : totalFiles + 1 - max 1 (totalFiles - MAX_SCAN_DEPTH) =
      (totalFiles - max 1 (totalFiles - MAX_SCAN_DEPTH)) + 1 := by omega
  unfold findFirstNewPhotoIndex
  dsimp only
  rw [hcount, scanLoop_newest_handled fileInfo fileExists now totalFiles info
    _ h2 h3]

/-- Witness for C3's amended statement at the counterexample inputs. -/
theorem C3_reset_session_amended_witness :
    1 ≤ 1 ∧
    (if 1 = 1 then some (⟨5, "IMG_0001.JPG"⟩ : FileInfo) else none) =
      some ⟨5, "IMG_0001.JPG"⟩ ∧
    ((5 : Int) < 10 ∨ ("IMG_0001.JPG" == "IMG_0001.JPG") = true) ∧
    findFirstNewPhotoIndex
      (fun i => if i = 1 then some ⟨5, "IMG_0001.JPG"⟩ else none)
      (fun f => f == "IMG_0001.JPG")
      (resetSession 10 ⟨CameraConnectionState.CONNECTED, 0⟩).sessionStartTime
      1 = none := by
  have h := C3_reset_session_amended ⟨CameraConnectionState.CONNECTED, 0⟩ 10
    (fun i => if i = 1 then some ⟨5, "IMG_0001.JPG"⟩ else none)
    (fun f => f == "IMG_0001.JPG") 1 ⟨5, "IMG_0001.JPG"⟩
    (by decide) (by decide) (Or.inl (by decide))
  exact ⟨by decide, by decide, Or.inl (by decide), h.2.2⟩

end SyncVariant

namespace PollVariant

/-- Membership in a `Set.add`. -/
theorem mem_setAdd (x f : String) (l : List String) :
    x ∈ setAdd f l ↔ x ∈ l ∨ x = f := by
  unfold setAdd
  by_cases h : f ∈ l
  · rw [if_pos h]
    exact ⟨Or.inl, fun hx => hx.elim id fun he => he ▸ h⟩
  · rw [if_neg h]
    simp [List.mem_append]

/-- Membership after the enqueue loop. -/
theorem mem_enqueueNew : ∀ (ns q : List String) (x : String),
    x ∈ enqueueNew q ns ↔ x ∈ q ∨ x ∈ ns := by
  intro ns
  induction ns with
  | nil => intro q x; simp [enqueueNew]
  | cons n rest ih =>
      intro q x
      have hstep : enqueueNew q (n :: rest) =
          enqueueNew (if n ∈ q then q else q ++ [n]) rest := rfl
      rw [hstep, ih]
      by_cases h : n ∈ q
      · rw [if_pos h]
        constructor
        · rintro (hx | hx)
          · exact Or.inl hx
          · exact Or.inr (List.mem_cons_of_mem n hx)
        · rintro (hx | hx)
          · exact Or.inl hx
          · rcases List.mem_cons.mp hx with rfl | hx'
            · exact Or.inl h
            · exact Or.inr hx'
      · rw [if_neg h]
        constructor
        · rintro (hx | hx)
          · rcases List.mem_append.mp hx with hx' | hx'
            · exact Or.inl hx'
            · exact Or.inr (List.mem_cons.mpr
                (Or.inl (List.mem_singleton.mp hx')))
          · exact Or.inr (List.mem_cons_of_mem n hx)
        · rintro (hx | hx)
          · exact Or.inl (List.mem_append.mpr (Or.inl hx))
          · rcases List.mem_cons.mp hx with rfl | hx'
            · exact Or.inl (List.mem_append.mpr
                (Or.inr (List.mem_singleton.mpr rfl)))
            · exact Or.inr hx'

/-- The enqueue loop keeps the queue duplicate-free. -/
theorem nodup_enqueueNew : ∀ (ns q : List String), q.Nodup →
    (enqueueNew q ns).Nodup := by
  intro ns
  induction ns with
  | nil => intro q h; exact h
  | cons n rest ih =>
      intro q h
      have hstep : enqueueNew q (n :: rest) =
          enqueueNew (if n ∈ q then q else q ++ [n]) rest := rfl
      rw [hstep]
      apply ih
      by_cases hn : n ∈ q
      · rw [if_pos hn]; exact h
      · rw [if_neg hn]
        refine List.Nodup.append h (List.nodup_singleton n) ?_
        intro a ha hb
        rw [List.mem_singleton] at hb
        exact hn (hb ▸ ha)

/-- Occurrence count after appending one element. -/
theorem count_append_singleton (l : List String) (f id : String) :
    (l ++ [f]).count id = l.count id + if f = id then 1 else 0 := by
  simp [List.count_append, List.count_cons, beq_iff_eq]

/-- Draining does not touch the handled set. -/
theorem tryStartDrain_downloadedFiles (t : QueueState) :
    (tryStartDrain t).downloadedFiles = t.downloadedFiles := by
  unfold tryStartDrain
  by_cases hfl : t.inFlight = none
  · rw [if_pos hfl]
    rcases hq : t.downloadQueue with _ | ⟨g, rest⟩ <;> rfl
  · rw [if_neg hfl]

/-- Draining does not emit photo events. -/
theorem tryStartDrain_photoEvents (t : QueueState) :
    (tryStartDrain t).photoEvents = t.photoEvents := by
  unfold tryStartDrain
  by_cases hfl : t.inFlight = none
  · rw [if_pos hfl]
    rcases hq : t.downloadQueue with _ | ⟨g, rest⟩ <;> rfl
  · rw [if_neg hfl]

/-- A poll tick does not emit photo events. -/
theorem pollStep_photoEvents (files : List String) (s : QueueState) :
    (pollStep files s).photoEvents = s.photoEvents := by
  unfold pollStep
  by_cases hne : files.filter (fun f => decide (f ∉ s.downloadedFiles)) = []
  · rw [if_pos hne]
  · rw [if_neg hne, tryStartDrain_photoEvents]

/-- A poll tick does not touch the handled set. -/
theorem pollStep_downloadedFiles (files : List String) (s : QueueState) :
    (pollStep files s).downloadedFiles = s.downloadedFiles := by
  unfold pollStep
  by_cases hne : files.filter (fun f => decide (f ∉ s.downloadedFiles)) = []
  · rw [if_pos hne]
  · rw [if_neg hne, tryStartDrain_downloadedFiles]

/-- Completion of an attempt, successful or failed, marks the in-flight
identifier handled. -/
theorem finishStep_marks (b : Bool) (s : QueueState) (f : String)
    (hfl : s.inFlight = some f) : f ∈ (finishStep b s).downloadedFiles := by
  unfold finishStep
  rw [hfl, tryStartDrain_downloadedFiles]
  show f ∈ setAdd f s.downloadedFiles
  rw [mem_setAdd]
  exact Or.inr rfl

/-- The handled set only grows. -/
theorem finishStep_downloadedFiles_mono (b : Bool) (s : QueueState)
    (x : String) (hx : x ∈ s.downloadedFiles) :
    x ∈ (finishStep b s).downloadedFiles := by
  unfold finishStep
  rcases hfl : s.inFlight with _ | f
  · exact hx
  · rw [tryStartDrain_downloadedFiles]
    show x ∈ setAdd f s.downloadedFiles
    rw [mem_setAdd]
    exact Or.inl hx

/-- The download-pipeline invariant is initially true. -/
theorem qInit_inv : QInv qInit := by
  refine ⟨List.nodup_nil, ?_, ?_, ?_, ?_, ?_⟩ <;> simp [qInit]

/-- Starting a drain preserves the invariant. -/
theorem tryStartDrain_inv (s : QueueState) (h : QInv s) :
    QInv (tryStartDrain s) := by
  unfold tryStartDrain
  by_cases hfl : s.inFlight = none
  · rw [if_pos hfl]
    rcases hq : s.downloadQueue with _ | ⟨f, rest⟩
    · exact h
    · obtain ⟨hnd, hqf, hqi, hif, hcnt, hph⟩ := h
      rw [hq] at hnd hqf
      show QInv { s with
        downloadQueue := rest
        inFlight := some f
        downloadInvocations := s.downloadInvocations ++ [f] }
      have hfrest : f ∉ rest := (List.nodup_cons.mp hnd).1
      refine ⟨(List.nodup_cons.mp hnd).2, ?_, ?_, ?_, ?_, ?_⟩
      · intro g hg
        exact hqf g (List.mem_cons_of_mem f hg)
      · intro g hg hcontra
        exact hfrest (Option.some.inj hcontra ▸ hg)
      · intro g hgeq
        exact Option.some.inj hgeq ▸ hqf f (List.mem_cons_self f rest)
      · intro id
        rw [count_append_singleton, hcnt id, hfl]
        by_cases hid : f = id
        · subst hid
          have : f ∉ s.downloadedFiles := hqf f (List.mem_cons_self f rest)
          simp [this]
        · simp [hid, Option.some.injEq]
      · intro id
        exact hph id
  · rw [if_neg hfl]
    exact h

/-- A poll tick executed while no download is in flight preserves the
invariant. -/
theorem pollStep_inv (files : List String) (s : QueueState) (h : QInv s)
    (hfl : s.inFlight = none) : QInv (pollStep files s) := by
  unfold pollStep
  by_cases hne : files.filter (fun f => decide (f ∉ s.downloadedFiles)) = []
  · rw [if_pos hne]
    exact h
  · rw [if_neg hne]
    apply tryStartDrain_inv
    obtain ⟨hnd, hqf, hqi, hif, hcnt, hph⟩ := h
    refine ⟨nodup_enqueueNew _ _ hnd, ?_, ?_, ?_, hcnt, hph⟩
    · intro g hg
      rcases (mem_enqueueNew _ _ _).mp hg with hg' | hg'
      · exact hqf g hg'
      · have := List.of_mem_filter hg'
        simpa using this
    · intro g _ hcontra
      rw [hfl] at hcontra
      exact Option.noConfusion hcontra
    · intro g hgeq
      rw [hfl] at hgeq
      exact Option.noConfusion hgeq

/-- Completion of the in-flight download preserves the invariant. -/
theorem finishStep_inv (b : Bool) (s : QueueState) (h : QInv s) :
    QInv (finishStep b s) := by
  unfold finishStep
  rcases hfl : s.inFlight with _ | f
  · exact h
  · apply tryStartDrain_inv
    obtain ⟨hnd, hqf, hqi, hif, hcnt, hph⟩ := h
    have hfnotd : f ∉ s.downloadedFiles := hif f hfl
    refine ⟨hnd, ?_, ?_, ?_, ?_, ?_⟩
    · intro g hg
      rw [mem_setAdd]
      rintro (hgd | rfl)
      · exact hqf g hg hgd
      · exact hqi g hg hfl
    · intro g _ hcontra
      exact Option.noConfusion hcontra
    · intro g hgeq
      exact Option.noConfusion hgeq
    · intro x
      dsimp only
      rw [hcnt x, hfl]
      by_cases hid : x = f
      · subst hid
        simp [mem_setAdd, hfnotd]
      · have hmem : (x ∈ setAdd f s.downloadedFiles) ↔
            x ∈ s.downloadedFiles := by
          rw [mem_setAdd]
          exact ⟨fun hx => hx.elim (fun hh => hh) fun he => absurd he hid,
            Or.inl⟩
        have hne1 : ¬ ((some f : Option String) = some x) :=
          fun he => hid (Option.some.inj he).symm
        simp [hmem, hne1]
    · intro x
      dsimp only
      by_cases hid : x = f
      · subst hid
        have h0 : s.photoEvents.count x = 0 := by
          have := hph x
          simpa [hfnotd] using this
        cases b
        · simp [h0, mem_setAdd]
        · simp [count_append_singleton, h0, mem_setAdd]
      · have hmem : (x ∈ setAdd f s.downloadedFiles) ↔
            x ∈ s.downloadedFiles := by
          rw [mem_setAdd]
          exact ⟨fun hx => hx.elim (fun hh => hh) fun he => absurd he hid,
            Or.inl⟩
        have hfneq : ¬ f = x := fun he => hid he.symm
        cases b
        · simpa [hmem] using hph x
        · simpa [List.count_cons, List.count_nil, beq_iff_eq, hid, hfneq,
            hmem] using hph x

/-- The invariant holds after any serialized schedule. -/
theorem qRun_inv : ∀ (tr : List QStep) (s : QueueState), QInv s →
    Serialized s tr → QInv (qRun s tr) := by
  intro tr
  induction tr with
  | nil => intro s h _; exact h
  | cons st rest ih =>
      intro s h hser
      cases st with
      | poll files =>
          obtain ⟨hfl, hser'⟩ := hser
          exact ih (pollStep files s) (pollStep_inv files s h hfl) hser'
      | finish b =>
          exact ih (finishStep b s) (finishStep_inv b s h) hser

/-- Along a serialized schedule, an already-handled identifier is never
downloaded again. -/
theorem no_redownload : ∀ (tr : List QStep) (s : QueueState) (x : String),
    QInv s → Serialized s tr → x ∈ s.downloadedFiles →
    successfullyDownloaded s tr x = false := by
  intro tr
  induction tr with
  | nil => intro s x _ _ _; rfl
  | cons st rest ih =>
      intro s x hinv hser hx
      cases st with
      | poll files =>
          obtain ⟨hfl, hser'⟩ := hser
          show successfullyDownloaded (pollStep files s) rest x = false
          refine ih (pollStep files s) x (pollStep_inv files s hinv hfl)
            hser' ?_
          rw [pollStep_downloadedFiles]
          exact hx
      | finish b =>
          show ((b && s.inFlight == some x) ||
            successfullyDownloaded (finishStep b s) rest x) = false
          have h1 : (b && s.inFlight == some x) = false := by
            cases hb : b
            · rfl
            · have hne : s.inFlight ≠ some x := fun heq =>
                (hinv.2.2.2.1 x heq) hx
              simp [hne]
          rw [h1, Bool.false_or]
          exact ih (finishStep b s) x (finishStep_inv b s hinv) hser
            (finishStep_downloadedFiles_mono b s x hx)

/-- Exact photo-event accounting along a serialized schedule: the count for
each identifier grows by one exactly when the schedule completes a
successful download of it. -/
theorem photo_exact : ∀ (tr : List QStep) (s : QueueState) (x : String),
    QInv s → Serialized s tr →
    (qRun s tr).photoEvents.count x = s.photoEvents.count x +
      (if successfullyDownloaded s tr x = true then 1 else 0) := by
  intro tr
  induction tr with
  | nil => intro s x _ _; simp [qRun, successfullyDownloaded]
  | cons st rest ih =>
      intro s x hinv hser
      cases st with
      | poll files =>
          obtain ⟨hfl, hser'⟩ := hser
          have h := ih (pollStep files s) x (pollStep_inv files s hinv hfl)
            hser'
          show (qRun (pollStep files s) rest).photoEvents.count x =
            s.photoEvents.count x +
            (if successfullyDownloaded (pollStep files s) rest x = true
             then 1 else 0)
          rw [h, pollStep_photoEvents]
      | finish b =>
          rcases hfl : s.inFlight with _ | f
          · have hfs : finishStep b s = s := by
              unfold finishStep
              rw [hfl]
            have hser' : Serialized s rest := by
              have h0 : Serialized (finishStep b s) rest := hser
              rwa [hfs] at h0
            have hsd : successfullyDownloaded s (QStep.finish b :: rest) x =
                successfullyDownloaded s rest x := by
              show ((b && s.inFlight == some x) ||
                successfullyDownloaded (finishStep b s) rest x) = _
              rw [hfl, hfs]
              simp
            have hrun : qRun s (QStep.finish b :: rest) = qRun s rest := by
              show qRun (finishStep b s) rest = qRun s rest
              rw [hfs]
            rw [hrun, hsd]
            exact ih s x hinv hser'
          · have hser' : Serialized (finishStep b s) rest := hser
            have hnext := ih (finishStep b s) x (finishStep_inv b s hinv) hser'
            have hphoto : (finishStep b s).photoEvents =
                s.photoEvents ++ (if b then [f] else []) := by
              unfold finishStep
              rw [hfl, tryStartDrain_photoEvents]
            show (qRun (finishStep b s) rest).photoEvents.count x =
              s.photoEvents.count x +
              (if ((b && s.inFlight == some x) ||
                successfullyDownloaded (finishStep b s) rest x) = true
               then 1 else 0)
            rw [hnext, hphoto, hfl]
            cases hb : b
            · simp
            · by_cases hxf : f = x
              · subst hxf
                have hsd' : successfullyDownloaded (finishStep true s) rest f
                    = false := by
                  refine no_redownload rest (finishStep true s) f
                    (finishStep_inv true s hinv) ?_
                    (finishStep_marks true s f hfl)
                  rw [hb] at hser'
                  exact hser'
                rw [hsd']
                simp [count_append_singleton]
              · have hne : (some f == some x) = false := by
                  simp [hxf]
                have hxf' : ¬ x = f := fun h => hxf h.symm
                simp [count_append_singleton, hxf, hxf', hne]

/-- C1 counterexample: the schedule `poll ["A"]`, `poll ["A"]`,
`finish true`, `finish true` is reachable on the event loop — the second
poll's `listCameraFiles()` resolves while the first identifier's
`downloadFile` is still awaited, which can happen because
`checkAndDownloadNewPhotos` calls `processDownloadQueue()` without `await`
(part_000 line 238), so the poll timer keeps firing during a drain.  At that
moment `A` is neither in `downloadedFiles` (it is added only after the await,
line 262) nor in `downloadQueue` (it was shifted at line 257), so the second
poll re-enqueues it: the pipeline is invoked twice for `A` and two
`photo-captured` events are published, refuting at-most-once delivery. -/
theorem C1_interleaved_double_download :
    (qRun qInit [QStep.poll ["A"], QStep.poll ["A"], QStep.finish true,
      QStep.finish true]).downloadInvocations.count "A" = 2 ∧
    (qRun qInit [QStep.poll ["A"], QStep.poll ["A"], QStep.finish true,
      QStep.finish true]).photoEvents.count "A" = 2 := by
  exact ⟨by decide, by decide⟩

/-- C1 amended: provided poll ticks are serialized with the queue drain — no
poll's listing is processed while a `downloadFile` is in flight — every
device identifier is handed to the pipeline at most once per session;
exactly one `photo` event is published per successfully downloaded
identifier and none for any other identifier; and the completion of any
download attempt, successful or failed, puts its identifier into
`downloadedFiles`. -/
theorem C1_at_most_once_serialized (tr : List QStep)
    (hser : Serialized qInit tr) :
    (∀ x, (qRun qInit tr).downloadInvocations.count x ≤ 1) ∧
    (∀ x, (qRun qInit tr).photoEvents.count x =
      if successfullyDownloaded qInit tr x = true then 1 else 0) ∧
    (∀ (s : QueueState) (b : Bool) (f : String), s.inFlight = some f →
      f ∈ (finishStep b s).downloadedFiles) := by
  obtain ⟨hnd, hqf, hqi, hif, hcnt, hph⟩ := qRun_inv tr qInit qInit_inv hser
  refine ⟨?_, ?_, fun s b f hfl => finishStep_marks b s f hfl⟩
  · intro x
    rw [hcnt x]
    by_cases hin : (qRun qInit tr).inFlight = some x
    · have hnot : x ∉ (qRun qInit tr).downloadedFiles := hif x hin
      simp [hin, hnot]
    · simp only [hin, if_false]
      split <;> omega
  · intro x
    have h := photo_exact tr qInit x qInit_inv hser
    simpa [qInit] using h

/-- Witness for C1's amended statement on a serialized schedule: two polls,
each drained to completion before the next; `A` downloads successfully and
gets exactly one photo event, `B`'s download fails and gets none. -/
theorem C1_at_most_once_serialized_witness :
    Serialized qInit [QStep.poll ["A"], QStep.finish true,
      QStep.poll ["A", "B"], QStep.finish false] ∧
    (qRun qInit [QStep.poll ["A"], QStep.finish true,
      QStep.poll ["A", "B"], QStep.finish false]).downloadInvocations.count
        "A" ≤ 1 ∧
    successfullyDownloaded qInit [QStep.poll ["A"], QStep.finish true,
      QStep.poll ["A", "B"], QStep.finish false] "A" = true ∧
    (qRun qInit [QStep.poll ["A"], QStep.finish true,
      QStep.poll ["A", "B"], QStep.finish false]).photoEvents.count "A" =
      (if successfullyDownloaded qInit [QStep.poll ["A"], QStep.finish true,
        QStep.poll ["A", "B"], QStep.finish false] "A" = true then 1 else 0) ∧
    successfullyDownloaded qInit [QStep.poll ["A"], QStep.finish true,
      QStep.poll ["A", "B"], QStep.finish false] "B" = false ∧
    (qRun qInit [QStep.poll ["A"], QStep.finish true,
      QStep.poll ["A", "B"], QStep.finish false]).photoEvents.count "B" =
      (if successfullyDownloaded qInit [QStep.poll ["A"], QStep.finish true,
        QStep.poll ["A", "B"], QStep.finish false] "B" = true
       then 1 else 0) := by
  have hser : Serialized qInit [QStep.poll ["A"], QStep.finish true,
      QStep.poll ["A", "B"], QStep.finish false] := ⟨rfl, rfl, trivial⟩
  have h := C1_at_most_once_serialized _ hser
  exact ⟨hser, h.1 "A", by decide, h.2.1 "A", by decide, h.2.1 "B"⟩

end PollVariant

end PortraitMate
